import Mathlib

/-!
# Verification of the pico-ethproofs coordination core

A shallow embedding, in Lean 4, of the parts of the `pico-ethproofs`
repository that the checked claims are about:

* the bincode byte-level serialization of `Vec<Vec<u8>>` used by
  `ProvingInputs::dump_to_dir` / `load_from_dir` (`crates/common/src/inputs.rs`),
  over an explicit file-system model;
* the message model (`crates/messages/src/lib.rs`,
  `crates/common/src/fetch.rs`) and the fetch-service HTTP router
  (`crates/fetch-service/src/service.rs`);
* the latest-blocks sub-fetcher loop
  (`crates/fetcher/src/proving_latest.rs`);
* the proving client's main loop and its gRPC dispatch
  (`crates/proving-client/src/client.rs`).

Machine integers (`u64`, `u32`, `usize`) are modelled as `Nat`; the code
paths involved perform no wrapping arithmetic except the `as u32` casts in
`send_proving_inputs`, which are modelled with an explicit `% 2 ^ 32`.
Bytes are modelled as `Nat` (their values are opaque to all the code
involved). Fallible operations return `Option`; a Rust `panic!` /
`assert!` / `.unwrap()` is a distinguished non-returning outcome and is
modelled as `none` (for pure helpers) or an explicit `panicked` outcome
(for the actor step functions).
-/

/-! ## Little-endian u64, as written by bincode

`bincode::serialize` (default options, as called by `dump_to_dir`) writes a
`Vec<T>` as a fixed 8-byte little-endian `u64` element count followed by the
elements; a `Vec<u8>` element is its count followed by its raw bytes. -/

/-- The 8 little-endian bytes of `n % 2 ^ 64`, as bincode writes a `u64`. -/
def le64 (n : Nat) : List Nat :=
  [n % 256, n / 256 % 256, n / 256 ^ 2 % 256, n / 256 ^ 3 % 256,
   n / 256 ^ 4 % 256, n / 256 ^ 5 % 256, n / 256 ^ 6 % 256, n / 256 ^ 7 % 256]

/-- Read back a little-endian `u64` from the first 8 bytes of a stream,
returning the value and the unconsumed tail; fails on a short stream. -/
def readLe64 : List Nat → Option (Nat × List Nat)
  | b0 :: b1 :: b2 :: b3 :: b4 :: b5 :: b6 :: b7 :: rest =>
      some (b0 + 256 * (b1 + 256 * (b2 + 256 * (b3 + 256 * (b4 + 256 *
        (b5 + 256 * (b6 + 256 * b7)))))), rest)
  | _ => none

theorem readLe64_le64 (n : Nat) (rest : List Nat) (h : n < 2 ^ 64) :
    readLe64 (le64 n ++ rest) = some (n, rest) := by
  simp only [le64, List.cons_append, List.nil_append, readLe64, Option.some.injEq,
    Prod.mk.injEq, and_true]
  omega

/-- bincode encoding of one `Vec<u8>`: count then raw bytes. -/
def encBytes (b : List Nat) : List Nat := le64 b.length ++ b

/-- bincode encoding of a `Vec<Vec<u8>>`: count then the encoded elements
back to back. -/
def encVecVec (v : List (List Nat)) : List Nat :=
  le64 v.length ++ (v.map encBytes).flatten

/-- Decode one length-prefixed byte string, threading the tail. -/
def readBytes (bs : List Nat) : Option (List Nat × List Nat) :=
  match readLe64 bs with
  | none => none
  | some (n, rest) =>
      if n ≤ rest.length then some (rest.take n, rest.drop n) else none

/-- Decode exactly `k` consecutive length-prefixed byte strings. -/
def readBytesList : Nat → List Nat → Option (List (List Nat) × List Nat)
  | 0, bs => some ([], bs)
  | k + 1, bs =>
      match readBytes bs with
      | none => none
      | some (b, rest) =>
          match readBytesList k rest with
          | none => none
          | some (l, rest') => some (b :: l, rest')

/-- `bincode::deserialize::<Vec<Vec<u8>>>`: read the count, then that many
length-prefixed elements (trailing bytes are ignored, as bincode does). -/
def decVecVec (bs : List Nat) : Option (List (List Nat)) :=
  match readLe64 bs with
  | none => none
  | some (k, rest) =>
      match readBytesList k rest with
      | none => none
      | some (l, _) => some l

theorem readBytes_encBytes (b rest : List Nat) (h : b.length < 2 ^ 64) :
    readBytes (encBytes b ++ rest) = some (b, rest) := by
  simp only [encBytes, List.append_assoc, readBytes, readLe64_le64 b.length (b ++ rest) h]
  have hle : b.length ≤ (b ++ rest).length := by simp
  simp [hle, List.take_left, List.drop_left]

theorem readBytesList_encBytes (v : List (List Nat)) (rest : List Nat)
    (h : ∀ b ∈ v, b.length < 2 ^ 64) :
    readBytesList v.length ((v.map encBytes).flatten ++ rest) = some (v, rest) := by
  induction v generalizing rest with
  | nil => simp [readBytesList]
  | cons b v ih =>
      have hb : b.length < 2 ^ 64 := h b (List.mem_cons_self b v)
      have hv : ∀ x ∈ v, x.length < 2 ^ 64 := fun x hx => h x (List.mem_cons_of_mem b hx)
      simp only [List.length_cons, List.map_cons, List.flatten_cons, List.append_assoc,
        readBytesList, readBytes_encBytes b _ hb, ih rest hv]

theorem decVecVec_encVecVec (v : List (List Nat)) (hlen : v.length < 2 ^ 64)
    (h : ∀ b ∈ v, b.length < 2 ^ 64) :
    decVecVec (encVecVec v) = some v := by
  have hrw : encVecVec v = le64 v.length ++ ((v.map encBytes).flatten ++ []) := by
    simp [encVecVec]
  rw [decVecVec, hrw, readLe64_le64 v.length _ hlen]
  simp only [readBytesList_encBytes v [] h]

/-! ## File-system model and `ProvingInputs` (`crates/common/src/inputs.rs`)

A file path is its list of components (Rust `PathBuf` join); a file system
is the set of directories created so far plus an association list of files,
most recent write first.  `fs::write` always succeeds in the model (its
I/O errors are environmental, not part of any claim); `fs::read` of an
absent path fails. -/

/-- A path, as the list of its components. -/
abbrev FsPath := List String

structure FileSys where
  dirs : List FsPath
  files : List (FsPath × List Nat)
deriving DecidableEq, Repr

def FileSys.empty : FileSys := ⟨[], []⟩

/-- `fs::write`: (over)write a file. -/
def FileSys.write (fs : FileSys) (p : FsPath) (content : List Nat) : FileSys :=
  { fs with files := (p, content) :: fs.files }

def fsFind : List (FsPath × List Nat) → FsPath → Option (List Nat)
  | [], _ => none
  | (q, v) :: rest, p => if q = p then some v else fsFind rest p

/-- `fs::read`: the most recent write to the path, if any. -/
def FileSys.read (fs : FileSys) (p : FsPath) : Option (List Nat) :=
  fsFind fs.files p

/-- `fs::create_dir_all`. -/
def FileSys.mkdir (fs : FileSys) (p : FsPath) : FileSys :=
  { fs with dirs := p :: fs.dirs }

/-- `MAX_NUM_SUBBLOCKS` (`crates/common/src/utils.rs`): maximum number of
subblocks for proving. -/
def MAX_NUM_SUBBLOCKS : Nat := 7

/-- `ProvingInputs` (`crates/common/src/inputs.rs`). -/
structure ProvingInputs where
  block_number : Nat
  agg_input : List Nat
  subblock_inputs : List (List Nat)
  subblock_public_values : List (List Nat)
deriving DecidableEq, Repr

/-- `block_dir`: `dir.join(format!("block{}", block_number)).join("gas10000000")`. -/
def block_dir (block_number : Nat) (dir : FsPath) : FsPath :=
  dir ++ ["block" ++ toString block_number, "gas10000000"]

/-- File name of the `i`-th subblock standard-input builder. -/
def subblockFileName (i : Nat) : String :=
  "subblock_stdin_builder_" ++ toString i ++ ".bin"

/-- Write the subblock input files `subblock_stdin_builder_<i>.bin`, starting
at index `i` (the `for (i, input) in self.subblock_inputs.iter().enumerate()`
loop of `dump_to_dir`). -/
def writeSubblockFiles (d : FsPath) : Nat → List (List Nat) → FileSys → FileSys
  | _, [], fs => fs
  | i, input :: rest, fs =>
      writeSubblockFiles d (i + 1) rest (fs.write (d ++ [subblockFileName i]) input)

/-- `ProvingInputs::dump_to_dir`. -/
def ProvingInputs.dump_to_dir (pi : ProvingInputs) (dir : FsPath) (fs : FileSys) : FileSys :=
  let d := block_dir pi.block_number dir
  let fs := fs.mkdir d
  let fs := fs.write (d ++ ["public_values.bin"]) (encVecVec pi.subblock_public_values)
  let fs := fs.write (d ++ ["final_aggregator_stdin_builder.bin"]) pi.agg_input
  writeSubblockFiles d 0 pi.subblock_inputs fs

/-- The `for i in 0..MAX_NUM_SUBBLOCKS` read loop of `load_from_dir`:
read consecutive subblock input files starting at index `i`, stopping at the
first read error, with `fuel` indices left until the loop bound. -/
def readSubblockFiles (fs : FileSys) (d : FsPath) : Nat → Nat → List (List Nat)
  | _, 0 => []
  | i, fuel + 1 =>
      match fs.read (d ++ [subblockFileName i]) with
      | some input => input :: readSubblockFiles fs d (i + 1) fuel
      | none => []

/-- `ProvingInputs::load_from_dir`.  `none` covers both the `bail!` / `?`
error returns and the `assert!(!subblock_inputs.is_empty())` panic (neither
returns a value). -/
def ProvingInputs.load_from_dir (block_number : Nat) (dir : FsPath) (fs : FileSys) :
    Option ProvingInputs :=
  let d := block_dir block_number dir
  if d ∈ fs.dirs then
    match fs.read (d ++ ["public_values.bin"]) with
    | none => none
    | some pvBytes =>
        match decVecVec pvBytes with
        | none => none
        | some subblock_public_values =>
            match fs.read (d ++ ["final_aggregator_stdin_builder.bin"]) with
            | none => none
            | some agg_input =>
                let subblock_inputs := readSubblockFiles fs d 0 MAX_NUM_SUBBLOCKS
                if subblock_inputs.isEmpty then none
                else some ⟨block_number, agg_input, subblock_inputs, subblock_public_values⟩
  else none

/-! ## Round-trip lemmas for `dump_to_dir` / `load_from_dir` -/

theorem subblockFileName_inj7 :
    ∀ i < 7, ∀ j < 7, i ≠ j → subblockFileName i ≠ subblockFileName j := by decide

theorem subblockFileName_ne_pv : ∀ i < 7, subblockFileName i ≠ "public_values.bin" := by decide

theorem subblockFileName_ne_agg :
    ∀ i < 7, subblockFileName i ≠ "final_aggregator_stdin_builder.bin" := by decide

theorem path_snoc_ne (d : FsPath) {a b : String} (h : a ≠ b) : d ++ [a] ≠ d ++ [b] := by
  intro hc
  exact h (by simpa using List.append_cancel_left hc)

theorem dirs_writeSubblockFiles (d : FsPath) (l : List (List Nat)) (i : Nat) (fs : FileSys) :
    (writeSubblockFiles d i l fs).dirs = fs.dirs := by
  induction l generalizing i fs with
  | nil => rfl
  | cons x rest ih => simp [writeSubblockFiles, ih, FileSys.write]

theorem read_write_self (fs : FileSys) (p : FsPath) (v : List Nat) :
    (fs.write p v).read p = some v := by
  simp [FileSys.write, FileSys.read, fsFind]

theorem read_write_other (fs : FileSys) (p q : FsPath) (v : List Nat) (h : p ≠ q) :
    (fs.write p v).read q = fs.read q := by
  simp [FileSys.write, FileSys.read, fsFind, h]

theorem read_writeSubblockFiles_other (d : FsPath) (l : List (List Nat)) (i : Nat)
    (fs : FileSys) (p : FsPath)
    (hp : ∀ j, i ≤ j → j < i + l.length → p ≠ d ++ [subblockFileName j]) :
    (writeSubblockFiles d i l fs).read p = fs.read p := by
  induction l generalizing i fs with
  | nil => rfl
  | cons x rest ih =>
      rw [writeSubblockFiles, ih (i + 1) _
        (fun j h1 h2 => hp j (by omega) (by simp only [List.length_cons]; omega)),
        read_write_other]
      exact fun hc => hp i le_rfl (by simp) hc.symm

theorem read_writeSubblockFiles_get (d : FsPath) (l : List (List Nat)) (i : Nat)
    (fs : FileSys) (j : Nat) (hij : i ≤ j) (hjl : j < i + l.length)
    (h7 : i + l.length ≤ 7) :
    (writeSubblockFiles d i l fs).read (d ++ [subblockFileName j]) = some (l.getD (j - i) []) := by
  induction l generalizing i fs with
  | nil => simp at hjl; omega
  | cons x rest ih =>
      rw [writeSubblockFiles]
      rcases Nat.eq_or_lt_of_le hij with heq | hlt
      · subst heq
        rw [read_writeSubblockFiles_other _ _ _ _ _ (fun k h1 h2 => by
            refine path_snoc_ne d (subblockFileName_inj7 i (by omega) k (by
              simp only [List.length_cons] at h7; omega) (by omega))),
          read_write_self]
        simp
      · rw [ih (i + 1) _ hlt (by simp only [List.length_cons] at hjl ⊢; omega)
          (by simp only [List.length_cons] at h7 ⊢; omega)]
        have hji : j - i = (j - (i + 1)) + 1 := by omega
        simp [hji]

theorem readSubblockFiles_of_writes (d : FsPath) (l : List (List Nat)) (fs : FileSys)
    (hlen : l.length ≤ 7)
    (hfresh : ∀ j < 7, fs.read (d ++ [subblockFileName j]) = none) :
    ∀ fuel i, i + fuel = 7 →
      readSubblockFiles (writeSubblockFiles d 0 l fs) d i fuel = l.drop i := by
  intro fuel
  induction fuel with
  | zero =>
      intro i hi
      rw [readSubblockFiles, List.drop_eq_nil_of_le (by omega)]
  | succ fuel ih =>
      intro i hi
      rw [readSubblockFiles]
      by_cases hK : i < l.length
      · rw [read_writeSubblockFiles_get d l 0 fs i (Nat.zero_le i) (by omega) (by omega),
          ih (i + 1) (by omega)]
        show l.getD (i - 0) [] :: List.drop (i + 1) l = List.drop i l
        rw [List.getD_eq_getElem l [] (show i - 0 < l.length by omega)]
        exact (List.drop_eq_getElem_cons hK).symm
      · rw [read_writeSubblockFiles_other d l 0 fs _ (fun j h1 h2 =>
            path_snoc_ne d (subblockFileName_inj7 i (by omega) j (by omega) (by omega))),
          hfresh i (by omega), List.drop_eq_nil_of_le (by omega)]

theorem readSubblockFiles_length_le (fs : FileSys) (d : FsPath) :
    ∀ fuel i, (readSubblockFiles fs d i fuel).length ≤ fuel := by
  intro fuel
  induction fuel with
  | zero => intro i; rw [readSubblockFiles]; exact Nat.le_refl 0
  | succ fuel ih =>
      intro i
      rw [readSubblockFiles]
      cases fs.read (d ++ [subblockFileName i]) with
      | none => simp
      | some input => simpa using ih (i + 1)

/-! Concrete inputs used by witnesses and counterexamples for the
`ProvingInputs` claims. -/

/-- A tiny concrete `ProvingInputs` with one subblock. -/
def samplePi : ProvingInputs := ⟨5, [9, 9], [[1, 2]], [[3]]⟩

/-- A directory whose `public_values.bin` holds an empty list while one
subblock input file exists: `load_from_dir` accepts it. -/
def mismatchFs : FileSys :=
  { dirs := [block_dir 1 ["root"]]
    files := [(block_dir 1 ["root"] ++ ["public_values.bin"], le64 0),
              (block_dir 1 ["root"] ++ ["final_aggregator_stdin_builder.bin"], []),
              (block_dir 1 ["root"] ++ [subblockFileName 0], [7])] }

/-- C8: `dump_to_dir` into a fresh directory followed by `load_from_dir` with
the same block number and directory returns the original `ProvingInputs` field
by field, for any value with `1 ≤ len(subblock_inputs) ≤ MAX_NUM_SUBBLOCKS` and
`len(subblock_public_values) = len(subblock_inputs)` (public-value sizes below
`2 ^ 64`, as any Rust `Vec` is). -/
theorem dump_to_dir_load_from_dir_roundtrip (pi : ProvingInputs) (dir : FsPath)
    (h1 : 1 ≤ pi.subblock_inputs.length)
    (h2 : pi.subblock_inputs.length ≤ MAX_NUM_SUBBLOCKS)
    (h3 : pi.subblock_public_values.length = pi.subblock_inputs.length)
    (h4 : ∀ b ∈ pi.subblock_public_values, b.length < 2 ^ 64) :
    ProvingInputs.load_from_dir pi.block_number dir (pi.dump_to_dir dir FileSys.empty) =
      some pi := by
  have hK7 : pi.subblock_inputs.length ≤ 7 := h2
  set d := block_dir pi.block_number dir with hd
  set fs2 : FileSys :=
    ((FileSys.empty.mkdir d).write (d ++ ["public_values.bin"])
        (encVecVec pi.subblock_public_values)).write
      (d ++ ["final_aggregator_stdin_builder.bin"]) pi.agg_input with hfs2
  have hdump : pi.dump_to_dir dir FileSys.empty = writeSubblockFiles d 0 pi.subblock_inputs fs2 :=
    rfl
  have hfresh : ∀ j < 7, fs2.read (d ++ [subblockFileName j]) = none := by
    intro j hj
    rw [hfs2, read_write_other _ _ _ _ (path_snoc_ne d (Ne.symm (subblockFileName_ne_agg j hj))),
      read_write_other _ _ _ _ (path_snoc_ne d (Ne.symm (subblockFileName_ne_pv j hj)))]
    rfl
  have hpv : (writeSubblockFiles d 0 pi.subblock_inputs fs2).read (d ++ ["public_values.bin"]) =
      some (encVecVec pi.subblock_public_values) := by
    rw [read_writeSubblockFiles_other _ _ _ _ _
        (fun j hj1 hj2 => path_snoc_ne d (Ne.symm (subblockFileName_ne_pv j (by omega)))),
      hfs2, read_write_other _ _ _ _ (path_snoc_ne d (by decide)), read_write_self]
  have hagg :
      (writeSubblockFiles d 0 pi.subblock_inputs fs2).read
        (d ++ ["final_aggregator_stdin_builder.bin"]) = some pi.agg_input := by
    rw [read_writeSubblockFiles_other _ _ _ _ _
        (fun j hj1 hj2 => path_snoc_ne d (Ne.symm (subblockFileName_ne_agg j (by omega)))),
      hfs2, read_write_self]
  have hsubs : readSubblockFiles (writeSubblockFiles d 0 pi.subblock_inputs fs2) d 0 7 =
      pi.subblock_inputs := by
    simpa using readSubblockFiles_of_writes d pi.subblock_inputs fs2 hK7 hfresh 7 0 rfl
  have hdirs : (writeSubblockFiles d 0 pi.subblock_inputs fs2).dirs = [d] := by
    rw [dirs_writeSubblockFiles]; rfl
  have hdec : decVecVec (encVecVec pi.subblock_public_values) =
      some pi.subblock_public_values :=
    decVecVec_encVecVec _ (by rw [h3]; omega) h4
  have hne : pi.subblock_inputs.isEmpty = false := by
    cases hsi : pi.subblock_inputs with
    | nil => rw [hsi] at h1; simp at h1
    | cons a l => rfl
  rw [hdump, ProvingInputs.load_from_dir]
  simp only [← hd, hdirs, List.mem_singleton, if_pos rfl, hpv, hdec, hagg, MAX_NUM_SUBBLOCKS,
    hsubs, hne, Bool.false_eq_true, if_false, if_true]

/-- C8 witness: the round trip at a concrete one-subblock `ProvingInputs`. -/
theorem dump_to_dir_load_from_dir_roundtrip_witness :
    (1 ≤ samplePi.subblock_inputs.length ∧
        samplePi.subblock_inputs.length ≤ MAX_NUM_SUBBLOCKS ∧
        samplePi.subblock_public_values.length = samplePi.subblock_inputs.length) ∧
      ProvingInputs.load_from_dir samplePi.block_number ["data"]
        (samplePi.dump_to_dir ["data"] FileSys.empty) = some samplePi :=
  ⟨by decide, dump_to_dir_load_from_dir_roundtrip samplePi ["data"] (by decide) (by decide)
    (by decide) (by decide)⟩

/-- C5 (amended): every `ProvingInputs` returned by `load_from_dir` has between
`1` and `MAX_NUM_SUBBLOCKS` subblock inputs; the function enforces no relation
at all between that count and `subblock_public_values`. -/
theorem load_from_dir_subblock_count_in_range (block_number : Nat) (dir : FsPath)
    (fs : FileSys) (pi : ProvingInputs)
    (h : ProvingInputs.load_from_dir block_number dir fs = some pi) :
    1 ≤ pi.subblock_inputs.length ∧ pi.subblock_inputs.length ≤ MAX_NUM_SUBBLOCKS := by
  simp only [ProvingInputs.load_from_dir] at h
  split at h
  · split at h
    · exact absurd h (by simp)
    · split at h
      · exact absurd h (by simp)
      · split at h
        · exact absurd h (by simp)
        · split at h
          · exact absurd h (by simp)
          · rename_i hdir pvBytes hpv spv hdec agg hagg hne
            obtain rfl : _ = pi := Option.some.inj h
            refine ⟨?_, readSubblockFiles_length_le fs _ MAX_NUM_SUBBLOCKS 0⟩
            rcases hsubs : readSubblockFiles fs (block_dir block_number dir) 0 MAX_NUM_SUBBLOCKS
              with _ | _
            · rw [hsubs] at hne; exact absurd rfl hne
            · simp only [hsubs, List.length_cons]; omega
  · exact absurd h (by simp)

/-- C5 counterexample: `load_from_dir` accepts a directory whose
`public_values.bin` decodes to an empty list while one subblock input file is
present, returning a `ProvingInputs` with `len(subblock_inputs) = 1` but
`len(subblock_public_values) = 0`. -/
theorem load_from_dir_length_mismatch :
    (ProvingInputs.load_from_dir 1 ["root"] mismatchFs).map
        (fun pi => (pi.subblock_inputs.length, pi.subblock_public_values.length)) =
      some (1, 0) := by
  rfl

/-- C5 witness: the subblock-count bounds at the concrete mismatched load. -/
theorem load_from_dir_subblock_count_in_range_witness :
    1 ≤ (ProvingInputs.mk 1 [] [[7]] []).subblock_inputs.length ∧
      (ProvingInputs.mk 1 [] [[7]] []).subblock_inputs.length ≤ MAX_NUM_SUBBLOCKS :=
  load_from_dir_subblock_count_in_range 1 ["root"] mismatchFs _ (by rfl)

/-! ## Message model (`crates/messages/src/lib.rs`, `crates/common/src/fetch.rs`) -/

/-- `BlockProvingReport` (`crates/common/src/report.rs`). -/
structure BlockProvingReport where
  success : Bool
  block_number : Nat
  cycles : Nat
  proving_milliseconds : Nat
  data_fetch_milliseconds : Nat
  proof : Option (List Nat)
deriving DecidableEq, Repr

/-- `BlockProvingReport::new`. -/
def BlockProvingReport.new (block_number data_fetch_milliseconds : Nat) : BlockProvingReport :=
  ⟨false, block_number, 0, 0, data_fetch_milliseconds, none⟩

/-- `BlockProvingReport::on_proving_success`. -/
def BlockProvingReport.on_proving_success (r : BlockProvingReport)
    (cycles proving_milliseconds : Nat) (proof : List Nat) : BlockProvingReport :=
  { r with success := true, cycles := cycles, proving_milliseconds := proving_milliseconds,
           proof := some proof }

/-- `BlockProvingReport::on_proving_failure`. -/
def BlockProvingReport.on_proving_failure (r : BlockProvingReport) : BlockProvingReport :=
  { r with success := false }

/-- `FetchMsg` (`crates/messages/src/lib.rs`). -/
inductive FetchMsg where
  | proveFromStart (start_block_number count : Nat)
  | proveLatest (count : Nat)
  | reproduceFromStart (start_block_number count : Nat)
deriving DecidableEq, Repr

/-- `ProvingMsg` (`crates/messages/src/lib.rs`). -/
structure ProvingMsg where
  fetch_report : BlockProvingReport
  proving_inputs : ProvingInputs
deriving DecidableEq, Repr

/-- `CompleteProvingRequest` (`ProvedMsg`): the gRPC callback payload. The
`.proto` file is not under `src/`; the fields are those used by
`crates/proving-client/src/client.rs` and `crates/proving-mock/src/aggregator.rs`
and listed by the spec (`block_number, success, cycles, proving_milliseconds,
proof?`). -/
structure CompleteProvingRequest where
  success : Bool
  block_number : Nat
  cycles : Nat
  proving_milliseconds : Nat
  proof : Option (List Nat)
deriving DecidableEq, Repr

/-- `BlockMsg` (`crates/messages/src/lib.rs`).  The `Watch` payload (a channel
handle) carries no data relevant to any claim. -/
inductive BlockMsg where
  | watch
  | fetch (m : FetchMsg)
  | proving (m : ProvingMsg)
  | proved (p : CompleteProvingRequest)
  | report (r : BlockProvingReport)
deriving DecidableEq, Repr

/-- `DEFAULT_PARAM_COUNT` (`crates/messages/src/lib.rs`). -/
def DEFAULT_PARAM_COUNT : Nat := 1

/-- Modelled from the spec: `ReproduceBlockByNumberParams` is declared in
`common::fetch` but its definition is not under `src/` (only its callers are);
per the spec it carries the required `start_block_num` and the optional
`count` query parameters of `/reproduce_block_by_number`. -/
structure ReproduceBlockByNumberParams where
  start_block_num : Nat
  count : Option Nat
deriving DecidableEq, Repr

/-- `impl From<ReproduceBlockByNumberParams> for BlockMsg`
(`crates/messages/src/lib.rs`, lines 54-63). -/
def BlockMsg.ofReproduceParams (params : ReproduceBlockByNumberParams) : BlockMsg :=
  .fetch (.reproduceFromStart params.start_block_num (params.count.getD DEFAULT_PARAM_COUNT))

/-! ## Fetch-service HTTP router (`crates/fetch-service/src/service.rs`) -/

/-- The handlers the fetch-service router can dispatch to. -/
inductive RouteHandler where
  | wsHandler
  | proveBlockByNumber
  | proveLatestBlock
deriving DecidableEq, Repr

/-- `HTTP_PROVE_BLOCK_BY_NUMBER_PATH` (`crates/common/src/fetch.rs`). -/
def HTTP_PROVE_BLOCK_BY_NUMBER_PATH : String := "/prove_block_by_number"

/-- `HTTP_PROVE_LATEST_BLOCK_PATH` (`crates/common/src/fetch.rs`). -/
def HTTP_PROVE_LATEST_BLOCK_PATH : String := "/prove_latest_block"

/-- Modelled from the spec: `HTTP_REPRODUCE_BLOCK_BY_NUMBER_PATH` is declared
in `common::fetch` but its definition is not under `src/` (only its caller in
`crates/fetch-client/src/http.rs` is); per the spec the path is
`/reproduce_block_by_number`. -/
def HTTP_REPRODUCE_BLOCK_BY_NUMBER_PATH : String := "/reproduce_block_by_number"

/-- The route table built by `FetchService::run`
(`crates/fetch-service/src/service.rs`, lines 36-49): exactly three `.route`
calls. -/
def fetchServiceRouter : List (String × RouteHandler) :=
  [("/", .wsHandler),
   (HTTP_PROVE_BLOCK_BY_NUMBER_PATH, .proveBlockByNumber),
   (HTTP_PROVE_LATEST_BLOCK_PATH, .proveLatestBlock)]

/-- Axum route matching on an exact path. -/
def routeLookup : List (String × RouteHandler) → String → Option RouteHandler
  | [], _ => none
  | (p, h) :: rest, q => if p = q then some h else routeLookup rest q

/-- C2: the fetch service's router does NOT serve `/reproduce_block_by_number`
(no route is registered for it, so axum answers 404 and nothing is enqueued),
even though the translation of its parameters into
`BlockMsg::Fetch(ReproduceFromStart{start_block_number, count})` — with `count`
defaulting to `1` — exists and behaves as the claim says. -/
theorem reproduce_route_not_registered :
    routeLookup fetchServiceRouter HTTP_REPRODUCE_BLOCK_BY_NUMBER_PATH = none ∧
      BlockMsg.ofReproduceParams ⟨100, none⟩ =
        .fetch (.reproduceFromStart 100 1) ∧
      BlockMsg.ofReproduceParams ⟨100, some 3⟩ =
        .fetch (.reproduceFromStart 100 3) := by
  refine ⟨by rfl, rfl, rfl⟩

/-! ## Latest-blocks sub-fetcher (`crates/fetcher/src/proving_latest.rs`)

The `run` loop is embedded as a trace-producing function.  Inputs: the queue
of `FetchMsg`s that will arrive on `fetch_receiver` (the loop only ever reads
it with the blocking `recv` at the top of an outer iteration — see the
theorems — so only their order matters), and the stream of block numbers the
RPC subscriptions will deliver (each new subscription continues the stream).
The trace records each subscription created, each block fetched, and how the
loop ends within the given fuel (outer iterations). -/

/-- `NUM_BLOCKS_PER_BATCH` (`crates/fetcher/src/proving_latest.rs`, line 17). -/
def NUM_BLOCKS_PER_BATCH : Nat := 10

/-- Observable events of the latest sub-fetcher loop. -/
inductive LatestEvent where
  /-- a websocket RPC connection and block subscription is created -/
  | subscribe
  /-- a block header was received and the block fetched and forwarded -/
  | fetched (block_number : Nat)
  /-- the loop is parked in the blocking `fetch_receiver.recv().await` -/
  | blockedOnRecv
  /-- the loop hit the `break` for an unexpected / closed receiver -/
  | halted
deriving DecidableEq, Repr

/-- The inner `while let Some(header) = latest_block_receiver.next()` loop:
fetch blocks, counting down `remaining_count` and up `batch_fetch_count`,
until no remaining blocks or `NUM_BLOCKS_PER_BATCH` is reached (or the
subscription stream ends).  Returns the events and the unconsumed stream. -/
def drainBatch : List Nat → Nat → Nat → List LatestEvent × List Nat
  | [], _, _ => ([], [])
  | header :: rest, remaining, batch =>
      let remaining := remaining - 1
      let batch := batch + 1
      if remaining = 0 ∨ NUM_BLOCKS_PER_BATCH ≤ batch then
        ([.fetched header], rest)
      else
        let (evs, rest') := drainBatch rest remaining batch
        (.fetched header :: evs, rest')

/-- The outer `loop` of `ProvingLatestFetcher::run`.  Each iteration re-binds
`batch_fetch_count = 0` and `remaining_count = 0` (both `let mut` inside the
loop body), so the `recv` at the top is always the blocking one and
`remaining_count.max(new_count) = new_count`.  `fuel` bounds the number of
outer iterations. -/
def latestFetcherRun : Nat → List FetchMsg → List Nat → List LatestEvent
  | 0, _, _ => []
  | fuel + 1, queue, headers =>
      -- let mut batch_fetch_count = 0; let mut remaining_count = 0;
      -- remaining_count == 0, so: fetch_receiver.recv().await
      match queue with
      | [] => [.blockedOnRecv]
      | .proveLatest count :: queue =>
          -- remaining_count = remaining_count.max(new_count) = count
          if count = 0 then latestFetcherRun fuel queue headers
          else
            let (evs, headers') := drainBatch headers count 0
            .subscribe :: evs ++ latestFetcherRun fuel queue headers'
      | _ :: _ => [.halted]

/-- Number of `fetched` events in a trace. -/
def countFetched (evs : List LatestEvent) : Nat :=
  (evs.filter fun ev => match ev with | .fetched _ => true | _ => false).length

/-- Number of `subscribe` events in a trace. -/
def countSubscribes (evs : List LatestEvent) : Nat :=
  (evs.filter fun ev => match ev with | .subscribe => true | _ => false).length

/-- C1: evaluating `ProvingLatestFetcher::run` on a `ProveLatest{count: 5}`
followed by a `ProveLatest{count: 3}` that arrives while the first request is
draining: because `remaining_count` is re-initialized to `0` at the top of
every outer loop iteration, the `try_recv` max-coalescing arm is unreachable
and the second request is only consumed after the first is fully drained —
eight blocks are fetched in total, not `max(5, 3) = 5`. -/
theorem latest_fetcher_overlapping_requests_add_up :
    latestFetcherRun 3 [.proveLatest 5, .proveLatest 3]
        [100, 101, 102, 103, 104, 105, 106, 107, 108, 109] =
      [.subscribe, .fetched 100, .fetched 101, .fetched 102, .fetched 103, .fetched 104,
       .subscribe, .fetched 105, .fetched 106, .fetched 107, .blockedOnRecv] ∧
      countFetched (latestFetcherRun 3 [.proveLatest 5, .proveLatest 3]
        [100, 101, 102, 103, 104, 105, 106, 107, 108, 109]) = 8 := by
  refine ⟨by rfl, by rfl⟩

/-- C6: evaluating `ProvingLatestFetcher::run` on `ProveLatest{count: 12}`
with twelve blocks available: the batch limit of `NUM_BLOCKS_PER_BATCH = 10`
does drop the subscription after ten blocks, but the next outer iteration
re-initializes `remaining_count` to `0` and parks in the blocking `recv`, so
no new subscription is created and the two outstanding blocks are never
fetched. -/
theorem latest_fetcher_batch_limit_loses_remaining :
    latestFetcherRun 2 [.proveLatest 12]
        [100, 101, 102, 103, 104, 105, 106, 107, 108, 109, 110, 111] =
      [.subscribe, .fetched 100, .fetched 101, .fetched 102, .fetched 103, .fetched 104,
       .fetched 105, .fetched 106, .fetched 107, .fetched 108, .fetched 109,
       .blockedOnRecv] ∧
      countFetched (latestFetcherRun 2 [.proveLatest 12]
        [100, 101, 102, 103, 104, 105, 106, 107, 108, 109, 110, 111]) = 10 ∧
      countSubscribes (latestFetcherRun 2 [.proveLatest 12]
        [100, 101, 102, 103, 104, 105, 106, 107, 108, 109, 110, 111]) = 1 := by
  refine ⟨by rfl, by rfl, by rfl⟩

/-! ## Proving client (`crates/proving-client/src/client.rs`)

The main loop's mutable state and one iteration, as a step function over the
message (or timeout) received.  gRPC sends, the docker-restart script and the
client re-initialization are recorded as effects; the retry loops inside them
concern only the network and are external to any claim.  A timeout event
carries whether the docker retry script exits successfully (an external
outcome).  A Rust `panic!` / failed `assert!` / `.unwrap()` on `None` is the
`panicked` outcome; the `break` on a receive error or unexpected variant is
`stopped`. -/

/-- The proving-client loop state: `proving_block_report`,
`last_proving_inputs` and `pending_msgs` (front of the `VecDeque` first). -/
structure ClientState where
  proving_block_report : Option BlockProvingReport
  last_proving_inputs : Option ProvingInputs
  pending_msgs : List ProvingMsg
deriving DecidableEq, Repr

/-- What one loop iteration observes: a message within the timeout, the
timeout elapsing, or a receive error / unexpected variant. -/
inductive ClientEvent where
  | proving (m : ProvingMsg)
  | proved (p : CompleteProvingRequest)
  | timeout (dockerRetryOk : Bool)
  | recvError
deriving DecidableEq, Repr

/-- Externally visible actions of one loop iteration. -/
inductive ClientEffect where
  /-- `send_proving_inputs(inputs, ...)`: dispatch to the remote workers -/
  | dispatch (inputs : ProvingInputs)
  /-- `comm_endpoint.send(BlockMsg::Report(r))` -/
  | sendReport (r : BlockProvingReport)
  /-- `./scripts/docker-multi-control.sh retry` -/
  | restartDocker
  /-- re-initialize the aggregator and subblock gRPC clients -/
  | rebuildClients
deriving DecidableEq, Repr

/-- Outcome of one loop iteration. -/
inductive ClientStep where
  | next (st : ClientState) (out : List ClientEffect)
  | stopped
  | panicked
deriving DecidableEq, Repr

/-- One iteration of the `loop` in `ProvingClient::run`. -/
def clientStep (st : ClientState) (ev : ClientEvent) : ClientStep :=
  match ev with
  | .proving m =>
      if st.proving_block_report.isNone then
        .next { st with proving_block_report := some m.fetch_report,
                        last_proving_inputs := some m.proving_inputs }
          [.dispatch m.proving_inputs]
      else
        .next { st with pending_msgs := st.pending_msgs ++ [m] } []
  | .proved p =>
      match st.proving_block_report with
      | none => .panicked   -- proving_block_report.unwrap()
      | some report =>
          if report.block_number ≠ p.block_number then .panicked   -- assert_eq!
          else
            match (if p.success then
                     match p.proof with
                     | none => none   -- proved_msg.proof.unwrap()
                     | some proof =>
                         some (report.on_proving_success p.cycles p.proving_milliseconds proof)
                   else some report.on_proving_failure) with
            | none => .panicked
            | some merged =>
                match st.pending_msgs with
                | [] =>
                    .next { st with proving_block_report := none } [.sendReport merged]
                | m :: rest =>
                    .next ⟨some m.fetch_report, some m.proving_inputs, rest⟩
                      [.sendReport merged, .dispatch m.proving_inputs]
  | .timeout dockerRetryOk =>
      match st.proving_block_report with
      | none => .next st []
      | some _ =>
          if dockerRetryOk then
            match st.last_proving_inputs with
            | some inputs => .next st [.restartDocker, .rebuildClients, .dispatch inputs]
            | none => .panicked   -- "cannot retry without proving inputs"
          else .panicked          -- "cannot recover from docker restart failure"
  | .recvError => .stopped

/-- The `Report` payloads an iteration outcome sends upstream. -/
def ClientStep.reports : ClientStep → List BlockProvingReport
  | .next _ out => out.filterMap fun e => match e with | .sendReport r => some r | _ => none
  | .stopped => []
  | .panicked => []

/-- C3: at most one block is in-flight.  (i) While a block is in-flight, a
`Proving` message is only appended to the pending FIFO: no dispatch, no other
state change.  (ii) A `Proving` message is dispatched immediately exactly when
nothing is in-flight.  (iii) On an accepted `Proved`, the pending head is
dispatched strictly after the in-flight block's `Report` in the iteration's
effect sequence, becoming the new in-flight block. -/
theorem proving_client_single_inflight :
    (∀ (st : ClientState) (r : BlockProvingReport) (m : ProvingMsg),
        st.proving_block_report = some r →
        clientStep st (.proving m) =
          .next { st with pending_msgs := st.pending_msgs ++ [m] } []) ∧
    (∀ (st : ClientState) (m : ProvingMsg),
        st.proving_block_report = none →
        clientStep st (.proving m) =
          .next ⟨some m.fetch_report, some m.proving_inputs, st.pending_msgs⟩
            [.dispatch m.proving_inputs]) ∧
    (∀ (st : ClientState) (r : BlockProvingReport) (p : CompleteProvingRequest)
        (m : ProvingMsg) (rest : List ProvingMsg),
        st.proving_block_report = some r →
        st.pending_msgs = m :: rest →
        r.block_number = p.block_number →
        (p.success = true → p.proof.isSome) →
        ∃ merged, clientStep st (.proved p) =
          .next ⟨some m.fetch_report, some m.proving_inputs, rest⟩
            [.sendReport merged, .dispatch m.proving_inputs]) := by
  refine ⟨?_, ?_, ?_⟩
  · intro st r m h
    simp [clientStep, h]
  · intro st m h
    simp [clientStep, h]
  · intro st r p m rest h hpend hbn hproof
    simp only [clientStep, h, if_neg (not_not_intro hbn)]
    cases hs : p.success with
    | true =>
        obtain ⟨proof, hpf⟩ := Option.isSome_iff_exists.mp (hproof hs)
        exact ⟨r.on_proving_success p.cycles p.proving_milliseconds proof,
          by simp [hs, hpf, hpend]⟩
    | false =>
        exact ⟨r.on_proving_failure, by simp [hs, hpend]⟩

/-- C3 witness: a `Proving` message arriving while block 7 is in-flight is
appended to the pending queue with no effects. -/
theorem proving_client_single_inflight_witness :
    clientStep ⟨some (BlockProvingReport.new 7 42), some samplePi, []⟩
        (.proving ⟨BlockProvingReport.new 8 1, samplePi⟩) =
      .next ⟨some (BlockProvingReport.new 7 42), some samplePi,
             [⟨BlockProvingReport.new 8 1, samplePi⟩]⟩ [] :=
  proving_client_single_inflight.1 _ (BlockProvingReport.new 7 42) _ rfl

/-- C4 counterexample: a `Proved` whose `block_number` matches the in-flight
block but with `success = true` and `proof = None` makes the client panic on
`proved_msg.proof.unwrap()`, so no `Report` at all is emitted for this
accepted (matching) `Proved`. -/
theorem proved_match_without_proof_panics :
    clientStep ⟨some (BlockProvingReport.new 7 42), some samplePi, []⟩
        (.proved ⟨true, 7, 5, 6, none⟩) = .panicked ∧
      (clientStep ⟨some (BlockProvingReport.new 7 42), some samplePi, []⟩
        (.proved ⟨true, 7, 5, 6, none⟩)).reports = [] :=
  ⟨rfl, rfl⟩

/-- C4 (amended): on `Proved(p)` while `r` is in-flight, a block-number
mismatch is a fatal assertion; on a match, provided `p` carries a proof
whenever it reports success (otherwise `proof.unwrap()` panics), the iteration
emits exactly one `Report`, whose `block_number` equals `p.block_number`. -/
theorem proved_assertion_and_single_report (st : ClientState) (r : BlockProvingReport)
    (p : CompleteProvingRequest) (h : st.proving_block_report = some r) :
    (r.block_number ≠ p.block_number → clientStep st (.proved p) = .panicked) ∧
    (r.block_number = p.block_number → (p.success = true → p.proof.isSome) →
      ∃ merged, (clientStep st (.proved p)).reports = [merged] ∧
        merged.block_number = p.block_number) := by
  constructor
  · intro hne
    simp [clientStep, h, hne]
  · intro hbn hproof
    simp only [clientStep, h, if_neg (not_not_intro hbn)]
    cases hs : p.success with
    | true =>
        obtain ⟨proof, hpf⟩ := Option.isSome_iff_exists.mp (hproof hs)
        refine ⟨r.on_proving_success p.cycles p.proving_milliseconds proof, ?_, ?_⟩
        · cases st.pending_msgs <;> simp [hs, hpf, ClientStep.reports]
        · simpa [BlockProvingReport.on_proving_success] using hbn
    | false =>
        refine ⟨r.on_proving_failure, ?_, ?_⟩
        · cases st.pending_msgs <;> simp [hs, ClientStep.reports]
        · simpa [BlockProvingReport.on_proving_failure] using hbn

/-- C4 witness: a matching, well-formed `Proved` for in-flight block 7 yields
exactly one `Report` for block 7. -/
theorem proved_assertion_and_single_report_witness :
    ∃ merged, (clientStep ⟨some (BlockProvingReport.new 7 42), some samplePi, []⟩
        (.proved ⟨true, 7, 5, 6, some [1]⟩)).reports = [merged] ∧
      merged.block_number = 7 :=
  (proved_assertion_and_single_report _ (BlockProvingReport.new 7 42) _ rfl).2 rfl
    (fun _ => rfl)

/-- C9: the timeout-recovery path leaves `proving_block_report`,
`last_proving_inputs` and `pending_msgs` exactly as they were, its only
effects being the container restart, the client re-initialization and the
re-dispatch of the saved `last_proving_inputs`; a timeout with nothing
in-flight does nothing at all. -/
theorem timeout_recovery_frame (st : ClientState) (r : BlockProvingReport)
    (inputs : ProvingInputs) :
    (st.proving_block_report = some r → st.last_proving_inputs = some inputs →
      clientStep st (.timeout true) =
        .next st [.restartDocker, .rebuildClients, .dispatch inputs]) ∧
    (st.proving_block_report = none → ∀ dockerRetryOk,
      clientStep st (.timeout dockerRetryOk) = .next st []) := by
  constructor
  · intro h hlast
    simp [clientStep, h, hlast]
  · intro h dockerRetryOk
    simp [clientStep, h]

/-- C9 witness: recovery at a concrete in-flight state. -/
theorem timeout_recovery_frame_witness :
    clientStep ⟨some (BlockProvingReport.new 7 42), some samplePi, []⟩ (.timeout true) =
      .next ⟨some (BlockProvingReport.new 7 42), some samplePi, []⟩
        [.restartDocker, .rebuildClients, .dispatch samplePi] :=
  (timeout_recovery_frame _ (BlockProvingReport.new 7 42) samplePi).1 rfl rfl

/-- C10: a `Proved` received while no block is in-flight panics on
`proving_block_report.unwrap()`: the component terminates instead of logging
and dropping the message. -/
theorem proved_without_inflight_panics (st : ClientState) (p : CompleteProvingRequest)
    (h : st.proving_block_report = none) :
    clientStep st (.proved p) = .panicked := by
  simp [clientStep, h]

/-- C10 witness: an unsolicited `Proved` at the idle initial state. -/
theorem proved_without_inflight_panics_witness :
    clientStep ⟨none, none, []⟩ (.proved ⟨true, 7, 5, 6, some [1]⟩) = .panicked :=
  proved_without_inflight_panics _ _ rfl

/-! ## `send_proving_inputs` (`crates/proving-client/src/client.rs`, lines 341-450)

The dispatch helper, as the ordered sequence of gRPC requests it sends on the
success path (`prove_aggregation` first, then `prove_subblock` for each
worker in index order; the per-request retry loops concern only the network).
`none` models the two panicking `assert!`s at the top. -/

/-- `ProveAggregationRequest` (wire contract; fields as constructed in
`send_proving_inputs`). -/
structure ProveAggregationRequest where
  block_number : Nat
  num_subblocks : Nat
  subblock_public_values : List (List Nat)
  input : List Nat
deriving DecidableEq, Repr

/-- `ProveSubblockRequest` (wire contract; fields as constructed in
`send_proving_inputs`). -/
structure ProveSubblockRequest where
  block_number : Nat
  num_subblocks : Nat
  subblock_index : Nat
  input : List Nat
deriving DecidableEq, Repr

/-- A gRPC request sent by `send_proving_inputs`, in send order. -/
inductive GrpcRequest where
  | aggregation (r : ProveAggregationRequest)
  | subblock (r : ProveSubblockRequest)
deriving DecidableEq, Repr

/-- `send_proving_inputs(proving_inputs, agg_client, subblock_clients)` with
`subblockClientLen = subblock_clients.len()`.  The `as u32` casts are the
explicit `% 2 ^ 32`; `Vec::resize` with `subblock_inputs[0]` is the
`++ List.replicate` padding; `.headI` is `[0]` on the (asserted non-empty)
input list. -/
def send_proving_inputs (pi : ProvingInputs) (subblockClientLen : Nat) :
    Option (List GrpcRequest) :=
  let num_subblocks := pi.subblock_inputs.length
  if num_subblocks = 0 then none
  else if subblockClientLen < num_subblocks then none
  else
    let num_subblocks32 := num_subblocks % 2 ^ 32
    let aggReq : ProveAggregationRequest :=
      ⟨pi.block_number, num_subblocks32, pi.subblock_public_values, pi.agg_input⟩
    let subblock_inputs :=
      if pi.subblock_inputs.length < subblockClientLen then
        pi.subblock_inputs ++
          List.replicate (subblockClientLen - pi.subblock_inputs.length)
            pi.subblock_inputs.headI
      else pi.subblock_inputs
    some (.aggregation aggReq ::
      subblock_inputs.enum.map fun p =>
        .subblock ⟨pi.block_number, num_subblocks32, p.1 % 2 ^ 32, p.2⟩)

/-- C7: with `K = len(subblock_inputs)` and `1 ≤ K ≤ subblockClientLen` (and
the worker count below `2 ^ 32` so the `as u32` casts are lossless),
`send_proving_inputs` sends the aggregation request first and then one
`ProveSubblockRequest` per worker in increasing index order, each carrying
`num_subblocks = K` (the unpadded count), `subblock_index = i`, and the `i`-th
input — the original one for `i < K`, and a copy of the first input in every
padded slot `K ≤ i < subblockClientLen`. -/
theorem send_proving_inputs_padding (pi : ProvingInputs) (subblockClientLen : Nat)
    (h1 : 1 ≤ pi.subblock_inputs.length)
    (h2 : pi.subblock_inputs.length ≤ subblockClientLen)
    (h3 : subblockClientLen < 2 ^ 32) :
    send_proving_inputs pi subblockClientLen =
      some (.aggregation ⟨pi.block_number, pi.subblock_inputs.length,
              pi.subblock_public_values, pi.agg_input⟩ ::
        (List.range subblockClientLen).map fun i =>
          .subblock ⟨pi.block_number, pi.subblock_inputs.length, i,
            if i < pi.subblock_inputs.length then pi.subblock_inputs.getD i []
            else pi.subblock_inputs.headI⟩) := by
  have hK32 : pi.subblock_inputs.length % 2 ^ 32 = pi.subblock_inputs.length :=
    Nat.mod_eq_of_lt (by omega)
  have hpad :
      (if pi.subblock_inputs.length < subblockClientLen then
          pi.subblock_inputs ++
            List.replicate (subblockClientLen - pi.subblock_inputs.length)
              pi.subblock_inputs.headI
        else pi.subblock_inputs) =
        pi.subblock_inputs ++
          List.replicate (subblockClientLen - pi.subblock_inputs.length)
            pi.subblock_inputs.headI := by
    rcases Nat.lt_or_ge pi.subblock_inputs.length subblockClientLen with hlt | hge
    · rw [if_pos hlt]
    · have : subblockClientLen - pi.subblock_inputs.length = 0 := by omega
      rw [if_neg (by omega), this, List.replicate_zero, List.append_nil]
  rw [send_proving_inputs]
  simp only [if_neg (by omega : ¬ pi.subblock_inputs.length = 0),
    if_neg (by omega : ¬ subblockClientLen < pi.subblock_inputs.length), hpad, hK32,
    Option.some.injEq, List.cons.injEq, true_and]
  apply List.ext_getElem
  · simp; omega
  · intro i hi1 hi2
    have hilen : i < subblockClientLen := by
      simp only [List.length_map, List.length_range] at hi2
      exact hi2
    have hpadlen :
        (pi.subblock_inputs ++
          List.replicate (subblockClientLen - pi.subblock_inputs.length)
            pi.subblock_inputs.headI).length = subblockClientLen := by
      simp; omega
    have hi32 : i % 2 ^ 32 = i := Nat.mod_eq_of_lt (by omega)
    simp only [List.getElem_map, List.getElem_enum, List.getElem_range, hi32]
    rcases Nat.lt_or_ge i pi.subblock_inputs.length with hlt | hge
    · rw [List.getElem_append_left hlt, if_pos hlt, List.getD_eq_getElem _ _ hlt]
    · rw [List.getElem_append_right (by omega), List.getElem_replicate, if_neg (by omega)]

/-- C7 witness: one real subblock input and three workers — the two extra
slots carry copies of the first input, `num_subblocks` stays `1`. -/
theorem send_proving_inputs_padding_witness :
    (1 ≤ samplePi.subblock_inputs.length ∧ samplePi.subblock_inputs.length ≤ 3 ∧
        (3 : Nat) < 2 ^ 32) ∧
      send_proving_inputs samplePi 3 =
        some (.aggregation ⟨samplePi.block_number, samplePi.subblock_inputs.length,
                samplePi.subblock_public_values, samplePi.agg_input⟩ ::
          (List.range 3).map fun i =>
            .subblock ⟨samplePi.block_number, samplePi.subblock_inputs.length, i,
              if i < samplePi.subblock_inputs.length then samplePi.subblock_inputs.getD i []
              else samplePi.subblock_inputs.headI⟩) :=
  ⟨⟨by decide, by decide, by decide⟩,
    send_proving_inputs_padding samplePi 3 (by decide) (by decide) (by decide)⟩
